import Mathlib

/-!
# Verification of the wheel-rs process core

A shallow embedding of the PID-file, signal and process-termination code of
the `wheel-rs` repository (`src/process/pid/pid_utils.rs`,
`src/process/pid/pid_file_guard.rs`, `src/process/signal/signal_utils.rs`,
`src/process/process/process_utils.rs`), together with theorems settling the
behavioural claims about it.

The file system is modelled as an association list from paths to contents;
machine integers are modelled as `Nat`/`Int` with explicit bounds and wrapping
where the Rust code casts; fallible operations return `Except`.
-/

namespace WheelRs

/-! ## File-system model

Paths are valid UTF-8 strings (so Rust `Path::to_str` never fails in the
model); file contents are character lists. The I/O primitives the code uses
(`File::open` on an existing file, `File::create`, `write_all`) are modelled
as succeeding; `std::fs::remove_file` fails iff the file does not exist. -/

abbrev Path := String

abbrev Content := List Char

/-- A file system: a finite map from paths to file contents. -/
abbrev FS := List (Path × Content)

/-- Content of the file at `p`, or `none` when no such file exists. -/
def fsRead (fs : FS) (p : Path) : Option Content :=
  (fs.find? (fun e => e.1 == p)).map (fun e => e.2)

/-- Create or overwrite the file at `p` with content `c`. -/
def fsWrite (fs : FS) (p : Path) (c : Content) : FS :=
  (p, c) :: fs.filter (fun e => ¬ e.1 == p)

/-- Remove the file at `p`. -/
def fsDelete (fs : FS) (p : Path) : FS :=
  fs.filter (fun e => ¬ e.1 == p)

/-! ## Errors (src/process/pid/pid_error.rs) -/

/-- The `PidError` enum of `pid_error.rs` (the `pid_file_guard.rs` variant names
carry an extra `Error` suffix; the constructors and payloads are identical). -/
inductive PidError
  | InvalidPidFilePath (path : Path)
  | OpenPidFile (path : Path)
  | CreatePidFile (path : Path)
  | ReadPidFile (path : Path)
  | WritePidFile (path : Path)
  | ParsePidFileContent (path : Path)
  | DeletePidFile (path : Path)
deriving DecidableEq, Repr

/-! ## Decimal text: rendering and parsing -/

/-- The ASCII character of the decimal digit `d`. -/
def digitChar (d : Nat) : Char := Char.ofNat (48 + d)

/-- Model of Rust `u32::to_string`: the decimal digits of `n`, most significant
first ( `"0"` for zero). -/
def natToDecimal (n : Nat) : List Char :=
  if n = 0 then ['0'] else ((Nat.digits 10 n).map digitChar).reverse

/-- The digit value of an ASCII digit character, `none` for any other char. -/
def charToDigit (c : Char) : Option Nat :=
  if 48 ≤ c.toNat ∧ c.toNat ≤ 57 then some (c.toNat - 48) else none

/-- Accumulating decimal parser over a run of digit characters; fails on the
first non-digit. -/
def parseDigitsAux : List Char → Nat → Option Nat
  | [], acc => some acc
  | c :: cs, acc =>
    match charToDigit c with
    | some d => parseDigitsAux cs (acc * 10 + d)
    | none => none

/-- One-or-more decimal digits (a bare `""`, `"+"` or `"-"` must fail). -/
def parseNatDigits : List Char → Option Nat
  | [] => none
  | c :: cs => parseDigitsAux (c :: cs) 0

/-- Model of Rust `str::parse::<i32>` (the `pid_t` of the code): an optional
sign followed by one or more decimal digits, failing on overflow of the
32-bit signed range. -/
def parseI32 : List Char → Option Int
  | [] => none
  | c :: cs =>
    if c = '+' then
      (parseNatDigits cs).bind fun n =>
        if (n : Int) ≤ 2147483647 then some (n : Int) else none
    else if c = '-' then
      (parseNatDigits cs).bind fun n =>
        if -2147483648 ≤ -(n : Int) then some (-(n : Int)) else none
    else
      (parseNatDigits (c :: cs)).bind fun n =>
        if (n : Int) ≤ 2147483647 then some (n : Int) else none

/-- Model of Rust `str::trim`: drop whitespace from both ends. -/
def rustTrim (l : List Char) : List Char :=
  ((l.dropWhile Char.isWhitespace).reverse.dropWhile Char.isWhitespace).reverse

/-- Model of `BufReader::lines().next()`: `none` on empty input (the iterator
yields no item), otherwise the text up to the first newline. (`lines` also
strips a carriage return before the newline; every use below immediately
`trim`s the line, which subsumes that.) -/
def firstLine : Content → Option (List Char)
  | [] => none
  | c :: cs => some ((c :: cs).takeWhile (fun ch => ¬ ch = '\n'))

/-! ## PID-file store (src/process/pid/pid_utils.rs) -/

/-- Embedding of `read_pid`: `Ok(None)` when the file does not exist, else read
the first line, trim it and parse it as a `pid_t` (i32). An empty file has no
first line, which surfaces as `ReadPidFile`; unparseable content surfaces as
`ParsePidFileContent`. -/
def read_pid (fs : FS) (pid_file_path : Path) : Except PidError (Option Int) :=
  match fsRead fs pid_file_path with
  | none => .ok none
  | some content =>
    match firstLine content with
    | none => .error (.ReadPidFile pid_file_path)
    | some line =>
      match parseI32 (rustTrim line) with
      | none => .error (.ParsePidFileContent pid_file_path)
      | some pid => .ok (some pid)

/-- Embedding of `write_pid`: serialize the current process id (`process::id()`,
a u32, passed here as `myPid`) as decimal text and create/overwrite the file
with it. Returns the updated file system. -/
def write_pid (fs : FS) (pid_file_path : Path) (myPid : Nat) : Except PidError FS :=
  .ok (fsWrite fs pid_file_path (natToDecimal myPid))

/-- Embedding of `delete_pid_file`: `std::fs::remove_file`, which fails (mapped
to `DeletePidFile`) when the file does not exist. -/
def delete_pid_file (fs : FS) (pid_file_path : Path) : Except PidError FS :=
  match fsRead fs pid_file_path with
  | some _ => .ok (fsDelete fs pid_file_path)
  | none => .error (.DeletePidFile pid_file_path)

/-- Model of the Rust cast `process::id() as pid_t` (u32 → i32, wrapping). -/
def u32AsI32 (n : Nat) : Int :=
  if n % 4294967296 < 2147483648 then ((n % 4294967296 : Nat) : Int)
  else ((n % 4294967296 : Nat) : Int) - 4294967296

/-- Embedding of `delete_pid_file_if_my_process`. The source reads
`if let Ok(Some(pid)) = read_pid(..) && pid == process::id() as pid_t`,
so a `read_pid` error (or a missing file, or a pid mismatch) makes the pattern
fail and the function returns `Ok(())` without touching the file; only a
`delete_pid_file` failure propagates (via `?`). -/
def delete_pid_file_if_my_process (fs : FS) (pid_file_path : Path) (myPid : Nat) :
    Except PidError FS :=
  match read_pid fs pid_file_path with
  | .ok (some pid) =>
    if pid = u32AsI32 myPid then delete_pid_file fs pid_file_path else .ok fs
  | .ok none => .ok fs
  | .error _ => .ok fs

/-- Decimal text of an `i32` value, as produced by Rust `i32::to_string`:
a minus sign for negative values followed by the decimal digits of the
absolute value. Used to state which file contents denote integers. -/
def intToDecimal (i : Int) : List Char :=
  if i < 0 then '-' :: natToDecimal i.natAbs else natToDecimal i.toNat

/-! ## Signals (src/process/signal/signal_utils.rs, signal_error.rs) -/

/-- The `nix::sys::signal::Signal` variants the code uses. -/
inductive Signal
  | SIGHUP
  | SIGCONT
  | SIGINT
  | SIGTERM
  | SIGQUIT
  | SIGKILL
deriving DecidableEq, Repr

/-- POSIX signal numbers (Linux) of the signals used. -/
def Signal.number : Signal → Nat
  | .SIGHUP => 1
  | .SIGCONT => 18
  | .SIGINT => 2
  | .SIGTERM => 15
  | .SIGQUIT => 3
  | .SIGKILL => 9

/-- The display name of a signal (`Signal`'s `to_string`). -/
def Signal.name : Signal → String
  | .SIGHUP => "SIGHUP"
  | .SIGCONT => "SIGCONT"
  | .SIGINT => "SIGINT"
  | .SIGTERM => "SIGTERM"
  | .SIGQUIT => "SIGQUIT"
  | .SIGKILL => "SIGKILL"

/-- The `SignalError` enum, with the variant names used at the call sites in
`signal_utils.rs`. -/
inductive SignalError
  | InvalidInstruction (instruction : String)
  | SendSignal (signal : String)
  | RegisterSignalHandler (signal : String)
deriving DecidableEq, Repr

/-- Model of Rust `str::to_lowercase`: character-wise lowering. `Char.toLower`
maps exactly A-Z to a-z, so this is faithful on ASCII strings (Rust
additionally lowers non-ASCII letters, which no instruction in the closed set
contains). -/
def rustToLowercase (s : String) : String := ⟨s.data.map Char.toLower⟩

/-- Embedding of `send_signal_by_instruction` up to the `kill` syscall:
lower-case the instruction, match it against the closed instruction set.
`.ok (pid, sig)` means exactly one `kill(pid, sig)` is dispatched;
`.error (.InvalidInstruction ..)` means the text was unmatched and no signal
is sent (the source's default match arm carries the lowercased text). -/
def send_signal_by_instruction (instruction : String) (pid : Int) :
    Except SignalError (Int × Signal) :=
  let instruction := rustToLowercase instruction
  if instruction = "hangup" then .ok (pid, .SIGHUP)
  else if instruction = "cont" then .ok (pid, .SIGCONT)
  else if instruction = "interrupt" then .ok (pid, .SIGINT)
  else if instruction = "stop" then .ok (pid, .SIGTERM)
  else if instruction = "terminate" then .ok (pid, .SIGTERM)
  else if instruction = "quit" then .ok (pid, .SIGQUIT)
  else if instruction = "kill" then .ok (pid, .SIGKILL)
  else .error (.InvalidInstruction instruction)

/-- Result of the `libc::kill` / `nix` kill syscall: `success` is a zero
return; `fail errno` is a -1 return with the given `errno`
(`fail none` models `io::Error::raw_os_error()` returning `None`). -/
inductive KillResult
  | success
  | fail (errno : Option Int)
deriving DecidableEq, Repr

/-- Linux errno for "no such process". -/
def ESRCH : Int := 3

/-- Linux errno for "operation not permitted". -/
def EPERM : Int := 1

/-- Full embedding of `send_signal_by_instruction` including the `kill`
syscall, parameterised by the OS kill behaviour `os pid signum`; a rejected
send maps to `SendSignal` carrying the signal's display name. -/
def send_signal_by_instruction_os (os : Int → Int → KillResult)
    (instruction : String) (pid : Int) : Except SignalError Unit :=
  match send_signal_by_instruction instruction pid with
  | .error e => .error e
  | .ok (p, sig) =>
    match os p (sig.number : Int) with
    | .success => .ok ()
    | .fail _ => .error (.SendSignal sig.name)

/-! ## Process liveness and termination
(src/process/process/process_utils.rs, process_error.rs) -/

/-- The `ProcessError` enum (the `Signal` wrapper variant is not reachable from
the functions modelled here). -/
inductive ProcessError
  | CheckProcess (msg : String)
  | TerminateProcessTimeout (pid : Int)
deriving DecidableEq, Repr

/-- Embedding of `check_process`: probe liveness of `pid` by `libc::kill(pid, 0)`
(signal number 0), parameterised by the OS kill behaviour `os pid signum`.
Success means alive; errno ESRCH means not alive; errno EPERM means alive but
inaccessible; any other failure is a `CheckProcess` error (carrying the
errno's text, or `"Unknown error"` when there is no errno). -/
def check_process (os : Int → Int → KillResult) (pid : Int) :
    Except ProcessError Bool :=
  match os pid 0 with
  | .success => .ok true
  | .fail (some e) =>
    if e = ESRCH then .ok false
    else if e = EPERM then .ok true
    else .error (.CheckProcess (toString e))
  | .fail none => .error (.CheckProcess "Unknown error")

/-- Embedding of `wait_for_process_exit`. Time is discretised at the poll
cadence: `alive i` is the outcome of the liveness probe of the i-th loop
iteration (the probe at elapsed time `i * retry_interval`), and `maxPolls` is
the number of probes the `tokio::time::timeout(wait_timeout, ..)` budget
admits before it cancels the loop (⌈wait_timeout / retry_interval⌉); an
exhausted budget is the timeout wrapper firing, mapped to
`TerminateProcessTimeout pid`. A probe error propagates (the `?` inside the
loop); a probe reporting not-alive ends the loop successfully. -/
def wait_for_process_exit (alive : Nat → Except ProcessError Bool) (pid : Int) :
    Nat → Nat → Except ProcessError Unit
  | _, 0 => .error (.TerminateProcessTimeout pid)
  | i, fuel + 1 =>
    match alive i with
    | .error e => .error e
    | .ok false => .ok ()
    | .ok true => wait_for_process_exit alive pid (i + 1) fuel

/-- Outcome of `terminate_process`: the source calls
`send_signal_by_instruction("terminate", pid).expect(..)`, so a failed initial
send panics (aborts) instead of returning an error. -/
inductive TerminateOutcome
  | panicked
  | completed (r : Except ProcessError Unit)
deriving Repr

/-- Embedding of `terminate_process`: dispatch the `"terminate"` instruction
(SIGTERM), then poll liveness until exit or the timeout budget is exhausted. -/
def terminate_process (os : Int → Int → KillResult)
    (alive : Nat → Except ProcessError Bool) (pid : Int) (maxPolls : Nat) :
    TerminateOutcome :=
  match send_signal_by_instruction_os os "terminate" pid with
  | .error _ => .panicked
  | .ok _ => .completed (wait_for_process_exit alive pid 0 maxPolls)

/-! ## Signal watcher (src/process/signal/signal_utils.rs) -/

/-- The signal classes `watch_signal_internal` registers a stream for. -/
inductive WatchSig
  | hangup
  | cont
  | interrupt
  | quit
  | terminate
deriving DecidableEq, Repr

/-- The signal classes on which the select loop `break`s. -/
def WatchSig.isTerminal : WatchSig → Bool
  | .interrupt | .quit | .terminate => true
  | .hangup | .cont => false

/-- The `nix` signal value broadcast for each watched class. -/
def WatchSig.toSignal : WatchSig → Signal
  | .hangup => .SIGHUP
  | .cont => .SIGCONT
  | .interrupt => .SIGINT
  | .quit => .SIGQUIT
  | .terminate => .SIGTERM

/-- Model of `tokio::sync::broadcast::Sender::send`: per tokio's documented
semantics it fails (returning the value in `SendError`) iff there are no
active receivers at send time; otherwise the value is queued to every current
receiver. -/
def broadcastSend (receiverCount : Nat) : Except Unit Unit :=
  if receiverCount = 0 then .error () else .ok ()

/-- How the `watch_signal_internal` select loop ended. -/
inductive WatchOutcome
  | waiting
  | exited
  | panicked
deriving DecidableEq, Repr

/-- Embedding of the `watch_signal_internal` select loop, driven by the list
of OS-delivered signals in arrival order, with `receiverCount` subscribed
receivers on the broadcast channel. Each arm broadcasts the received signal
with `sender.send(signal).expect(..)` — a failed send panics the task — then
either continues the loop (hangup, cont) or `break`s out of it (interrupt,
quit, terminate). Returns the broadcast events in order and how the loop
ended: still `waiting` on the streams when the input is exhausted, `exited`
after a terminal-class signal, or `panicked` on a failed broadcast. -/
def watch_signal_internal (receiverCount : Nat) :
    List WatchSig → List WatchSig × WatchOutcome
  | [] => ([], .waiting)
  | s :: rest =>
    match broadcastSend receiverCount with
    | .error _ => ([], .panicked)
    | .ok _ =>
      if s.isTerminal then ([s], .exited)
      else
        let (out, o) := watch_signal_internal receiverCount rest
        (s :: out, o)

/-! ## Supporting lemmas: decimal text round-trips -/

lemma charToDigit_digitChar {d : Nat} (hd : d < 10) : charToDigit (digitChar d) = some d := by
  interval_cases d <;> decide

lemma digitChar_props {d : Nat} (hd : d < 10) :
    48 ≤ (digitChar d).toNat ∧ (digitChar d).toNat ≤ 57 ∧
    (digitChar d).isWhitespace = false ∧ ¬ digitChar d = '\n' ∧
    ¬ digitChar d = '+' ∧ ¬ digitChar d = '-' := by
  interval_cases d <;> decide

lemma parseDigitsAux_map (l : List Nat) (h : ∀ d ∈ l, d < 10) (acc : Nat) :
    parseDigitsAux (l.map digitChar) acc =
      some (l.foldl (fun a d => a * 10 + d) acc) := by
  induction l generalizing acc with
  | nil => rfl
  | cons d t ih =>
    have hd : d < 10 := h d (List.mem_cons_self d t)
    simp only [List.map_cons, parseDigitsAux, charToDigit_digitChar hd, List.foldl_cons]
    exact ih (fun x hx => h x (List.mem_cons_of_mem d hx)) (acc * 10 + d)

lemma foldl_reverse_ofDigits (l : List Nat) (acc : Nat) :
    l.reverse.foldl (fun a d => a * 10 + d) acc = acc * 10 ^ l.length + Nat.ofDigits 10 l := by
  induction l generalizing acc with
  | nil => simp
  | cons d t ih =>
    simp only [List.reverse_cons, List.foldl_append, List.foldl_cons, List.foldl_nil,
      Nat.ofDigits_cons, List.length_cons, ih acc]
    ring

lemma natToDecimal_eq_rev_map (n : Nat) (hn : n ≠ 0) :
    natToDecimal n = (Nat.digits 10 n).reverse.map digitChar := by
  simp [natToDecimal, hn, List.map_reverse]

lemma natToDecimal_ne_nil (n : Nat) : natToDecimal n ≠ [] := by
  by_cases hn : n = 0
  · subst hn; decide
  · rw [natToDecimal_eq_rev_map n hn]
    simp [Nat.digits_ne_nil_iff_ne_zero, hn]

lemma digits_all_lt (n : Nat) : ∀ d ∈ Nat.digits 10 n, d < 10 :=
  fun _ hd => Nat.digits_lt_base (by norm_num) hd

lemma parseNatDigits_natToDecimal (n : Nat) : parseNatDigits (natToDecimal n) = some n := by
  by_cases hn : n = 0
  · subst hn; decide
  · rw [natToDecimal_eq_rev_map n hn]
    obtain ⟨c, cs, hcons⟩ :=
      List.exists_cons_of_ne_nil (l := (Nat.digits 10 n).reverse.map digitChar)
        (by simp [Nat.digits_ne_nil_iff_ne_zero, hn])
    rw [hcons, parseNatDigits, ← hcons,
      parseDigitsAux_map _ (fun d hd => digits_all_lt n d (List.mem_reverse.mp hd)) 0,
      foldl_reverse_ofDigits]
    simp [Nat.ofDigits_digits]

lemma mem_natToDecimal_exists {n : Nat} {c : Char} (hc : c ∈ natToDecimal n) :
    ∃ d, d < 10 ∧ c = digitChar d := by
  by_cases hn : n = 0
  · subst hn
    simp only [natToDecimal, if_pos rfl, if_true, List.mem_singleton] at hc
    exact ⟨0, by norm_num, by rw [hc]; decide⟩
  · rw [natToDecimal_eq_rev_map n hn] at hc
    obtain ⟨d, hd, hdc⟩ := List.mem_map.mp hc
    exact ⟨d, digits_all_lt n d (List.mem_reverse.mp hd), hdc.symm⟩

lemma natToDecimal_char_facts {n : Nat} {c : Char} (hc : c ∈ natToDecimal n) :
    c.isWhitespace = false ∧ ¬ c = '\n' ∧ ¬ c = '+' ∧ ¬ c = '-' := by
  obtain ⟨d, hd, rfl⟩ := mem_natToDecimal_exists hc
  have h := digitChar_props hd
  exact ⟨h.2.2.1, h.2.2.2.1, h.2.2.2.2.1, h.2.2.2.2.2⟩

lemma takeWhile_eq_self {α : Type} {p : α → Bool} (l : List α) (h : ∀ c ∈ l, p c) :
    l.takeWhile p = l := by
  induction l with
  | nil => rfl
  | cons c cs ih =>
    rw [List.takeWhile_cons, if_pos (h c (List.mem_cons_self c cs))]
    rw [ih (fun x hx => h x (List.mem_cons_of_mem c hx))]

lemma dropWhile_eq_self {α : Type} {p : α → Bool} (l : List α) (h : ∀ c ∈ l, p c = false) :
    l.dropWhile p = l := by
  cases l with
  | nil => rfl
  | cons c cs => rw [List.dropWhile_cons, if_neg (by simp [h c (List.mem_cons_self c cs)])]

lemma rustTrim_eq_self (l : List Char) (h : ∀ c ∈ l, c.isWhitespace = false) :
    rustTrim l = l := by
  rw [rustTrim, dropWhile_eq_self l h,
    dropWhile_eq_self l.reverse (fun c hc => h c (List.mem_reverse.mp hc)),
    List.reverse_reverse]

lemma firstLine_no_newline (l : List Char) (hne : l ≠ []) (h : ∀ c ∈ l, ¬ c = '\n') :
    firstLine l = some l := by
  obtain ⟨c, cs, rfl⟩ := List.exists_cons_of_ne_nil hne
  rw [firstLine, takeWhile_eq_self _ (fun x hx => by simp [h x hx])]

lemma parseI32_natToDecimal (n : Nat) (hn : n ≤ 2147483647) :
    parseI32 (natToDecimal n) = some (n : Int) := by
  obtain ⟨c, cs, hcons⟩ := List.exists_cons_of_ne_nil (natToDecimal_ne_nil n)
  have hsign :=
    natToDecimal_char_facts (c := c) (n := n) (by rw [hcons]; exact List.mem_cons_self c cs)
  rw [hcons, parseI32, if_neg hsign.2.2.1, if_neg hsign.2.2.2, ← hcons,
    parseNatDigits_natToDecimal]
  simp only [Option.some_bind]
  rw [if_pos (by exact_mod_cast hn)]

lemma parseI32_neg_natToDecimal (n : Nat) (hn : n ≤ 2147483648) :
    parseI32 ('-' :: natToDecimal n) = some (-(n : Int)) := by
  rw [parseI32, if_neg (by decide), if_pos rfl, parseNatDigits_natToDecimal]
  simp only [Option.some_bind]
  rw [if_pos (by omega)]

/-! ## Supporting lemmas: the file-system model -/

lemma fsRead_fsWrite_same (fs : FS) (p : Path) (c : Content) :
    fsRead (fsWrite fs p c) p = some c := by
  simp [fsRead, fsWrite, List.find?_cons_of_pos]

lemma fsRead_fsDelete_same (fs : FS) (p : Path) :
    fsRead (fsDelete fs p) p = none := by
  rw [fsRead, Option.map_eq_none', List.find?_eq_none]
  intro x hx
  have := (List.mem_filter.mp hx).2
  simp only [Bool.not_eq_true] at this ⊢
  simpa using this

lemma read_pid_ok_some_file_exists {fs : FS} {path : Path} {p : Int}
    (h : read_pid fs path = .ok (some p)) : ∃ c, fsRead fs path = some c := by
  rcases hr : fsRead fs path with _ | c
  · simp only [read_pid, hr] at h
    exact absurd h (by simp)
  · exact ⟨c, rfl⟩

/-! ## The claims -/

/-- C1: `delete_pid_file_if_my_process` deletes the PID file exactly when the
pid recorded in it equals the current process id. If `read_pid` returns
`Some p` and `p` equals the caller's pid, the file is deleted and a subsequent
`read_pid` returns `None`; if the recorded pid differs, the operation is a
no-op and the file still exists afterwards. -/
theorem delete_if_owned_exact (fs : FS) (path : Path) (myPid : Nat) (p : Int)
    (hread : read_pid fs path = .ok (some p)) :
    (p = u32AsI32 myPid →
      delete_pid_file_if_my_process fs path myPid = .ok (fsDelete fs path) ∧
      read_pid (fsDelete fs path) path = .ok none) ∧
    (p ≠ u32AsI32 myPid →
      delete_pid_file_if_my_process fs path myPid = .ok fs ∧
      fsRead fs path ≠ none) := by
  obtain ⟨c, hc⟩ := read_pid_ok_some_file_exists hread
  constructor
  · intro hp
    refine ⟨?_, ?_⟩
    · simp only [delete_pid_file_if_my_process, hread, if_pos hp, delete_pid_file, hc]
    · simp only [read_pid, fsRead_fsDelete_same]
  · intro hp
    refine ⟨?_, ?_⟩
    · simp only [delete_pid_file_if_my_process, hread, if_neg hp]
    · rw [hc]; simp

/-- C1 witness: the spec's §8 scenario — a file recording 1234 is removed by
the pid-1234 caller (after which reads return `None`), while a pid-5678 caller
leaves it intact. -/
theorem delete_if_owned_exact_witness :
    delete_pid_file_if_my_process [("app.pid", ['1', '2', '3', '4'])] "app.pid" 1234 =
      .ok (fsDelete [("app.pid", ['1', '2', '3', '4'])] "app.pid") ∧
    read_pid (fsDelete [("app.pid", ['1', '2', '3', '4'])] "app.pid") "app.pid" = .ok none ∧
    delete_pid_file_if_my_process [("app.pid", ['1', '2', '3', '4'])] "app.pid" 5678 =
      .ok [("app.pid", ['1', '2', '3', '4'])] ∧
    fsRead [("app.pid", ['1', '2', '3', '4'])] "app.pid" ≠ none := by
  have h1 :=
    (delete_if_owned_exact [("app.pid", ['1', '2', '3', '4'])] "app.pid" 1234 1234 rfl).1
      (by decide)
  have h2 :=
    (delete_if_owned_exact [("app.pid", ['1', '2', '3', '4'])] "app.pid" 5678 1234 rfl).2
      (by decide)
  exact ⟨h1.1, h1.2, h2.1, h2.2⟩

/-- C2 (code bug): at a state where `read_pid` fails — here with a parse error,
content `"x"` — `delete_pid_file_if_my_process` does NOT propagate the failure:
the `if let Ok(Some(pid)) = read_pid(..)` pattern silently discards the `Err`
and the function completes successfully for every caller pid, leaving the file
system untouched. This contradicts the claim and the function's own doc
comment (which documents its errors as inherited from `read_pid` and
`delete_pid_file`). -/
theorem delete_if_owned_swallows_read_error :
    read_pid [("app.pid", ['x'])] "app.pid" = .error (.ParsePidFileContent "app.pid") ∧
    ∀ myPid : Nat,
      delete_pid_file_if_my_process [("app.pid", ['x'])] "app.pid" myPid =
        .ok [("app.pid", ['x'])] :=
  ⟨rfl, fun _ => rfl⟩

/-- C3: `write_pid` followed by `read_pid` on the same path, with no
intervening writer, returns `Some` of the writing process's id; the content
written is exactly the ASCII decimal text of that pid (digit characters only,
no trailing newline). The bound is the `pid_t` (i32) range within which the
read's parse can return the written u32 unchanged. -/
theorem write_then_read_returns_pid (fs : FS) (path : Path) (myPid : Nat)
    (h : myPid ≤ 2147483647) :
    write_pid fs path myPid = .ok (fsWrite fs path (natToDecimal myPid)) ∧
    read_pid (fsWrite fs path (natToDecimal myPid)) path = .ok (some (myPid : Int)) ∧
    fsRead (fsWrite fs path (natToDecimal myPid)) path = some (natToDecimal myPid) ∧
    (∀ c ∈ natToDecimal myPid, 48 ≤ c.toNat ∧ c.toNat ≤ 57) ∧
    '\n' ∉ natToDecimal myPid := by
  have hfs := fsRead_fsWrite_same fs path (natToDecimal myPid)
  have hline : firstLine (natToDecimal myPid) = some (natToDecimal myPid) :=
    firstLine_no_newline _ (natToDecimal_ne_nil _)
      (fun c hc => (natToDecimal_char_facts hc).2.1)
  have htrim : rustTrim (natToDecimal myPid) = natToDecimal myPid :=
    rustTrim_eq_self _ (fun c hc => (natToDecimal_char_facts hc).1)
  refine ⟨rfl, ?_, hfs, ?_, ?_⟩
  · simp only [read_pid, hfs, hline, htrim, parseI32_natToDecimal myPid h]
  · intro c hc
    obtain ⟨d, hd, rfl⟩ := mem_natToDecimal_exists hc
    exact ⟨(digitChar_props hd).1, (digitChar_props hd).2.1⟩
  · intro hmem
    exact (natToDecimal_char_facts hmem).2.1 rfl

/-- C3 witness: pid 1234, as in the spec's §8 scenario. -/
theorem write_then_read_returns_pid_witness :
    write_pid [] "app.pid" 1234 = .ok (fsWrite [] "app.pid" (natToDecimal 1234)) ∧
    read_pid (fsWrite [] "app.pid" (natToDecimal 1234)) "app.pid" =
      .ok (some (1234 : Int)) ∧
    fsRead (fsWrite [] "app.pid" (natToDecimal 1234)) "app.pid" =
      some (natToDecimal 1234) ∧
    (∀ c ∈ natToDecimal 1234, 48 ≤ c.toNat ∧ c.toNat ≤ 57) ∧
    '\n' ∉ natToDecimal 1234 :=
  write_then_read_returns_pid [] "app.pid" 1234 (by norm_num)

/-- C9 counterexample: the file content `"0"` does not denote a positive
integer, yet `read_pid` succeeds with `Some 0` instead of rejecting the record
with `ParsePidFileContent` — `str::parse::<pid_t>` accepts any i32, including
zero and negatives. -/
theorem read_pid_accepts_zero :
    read_pid [("app.pid", ['0'])] "app.pid" = .ok (some 0) ∧
    ∀ e, read_pid [("app.pid", ['0'])] "app.pid" ≠ .error e := by
  refine ⟨rfl, fun e h => ?_⟩
  rw [show read_pid [("app.pid", ['0'])] "app.pid" = .ok (some 0) from rfl] at h
  exact absurd h (by simp)

/-- C9 amended: `read_pid` accepts the decimal text of any value in the i32
range — zero and negative values included — and fails with
`ParsePidFileContent` precisely when the trimmed first line of the (non-empty)
content does not parse as an i32. -/
theorem read_pid_i32_semantics (fs : FS) (path : Path) :
    (∀ i : Int, -2147483648 ≤ i → i ≤ 2147483647 →
      fsRead fs path = some (intToDecimal i) → read_pid fs path = .ok (some i)) ∧
    (∀ content line, fsRead fs path = some content → firstLine content = some line →
      parseI32 (rustTrim line) = none →
      read_pid fs path = .error (.ParsePidFileContent path)) := by
  constructor
  · intro i hlo hhi hfs
    by_cases hneg : i < 0
    · have hid : intToDecimal i = '-' :: natToDecimal i.natAbs := by
        rw [intToDecimal, if_pos hneg]
      rw [hid] at hfs
      have hchars : ∀ c ∈ '-' :: natToDecimal i.natAbs,
          c.isWhitespace = false ∧ ¬ c = '\n' := by
        intro c hc
        rcases List.mem_cons.mp hc with rfl | hc
        · exact ⟨by decide, by decide⟩
        · exact ⟨(natToDecimal_char_facts hc).1, (natToDecimal_char_facts hc).2.1⟩
      have hline : firstLine ('-' :: natToDecimal i.natAbs) =
          some ('-' :: natToDecimal i.natAbs) :=
        firstLine_no_newline _ (by simp) (fun c hc => (hchars c hc).2)
      have htrim : rustTrim ('-' :: natToDecimal i.natAbs) =
          '-' :: natToDecimal i.natAbs :=
        rustTrim_eq_self _ (fun c hc => (hchars c hc).1)
      have habs : i.natAbs ≤ 2147483648 := by omega
      have hval : -(i.natAbs : Int) = i := by omega
      simp only [read_pid, hfs, hline, htrim, parseI32_neg_natToDecimal i.natAbs habs, hval]
    · have hid : intToDecimal i = natToDecimal i.toNat := by
        rw [intToDecimal, if_neg hneg]
      rw [hid] at hfs
      have hline : firstLine (natToDecimal i.toNat) = some (natToDecimal i.toNat) :=
        firstLine_no_newline _ (natToDecimal_ne_nil _)
          (fun c hc => (natToDecimal_char_facts hc).2.1)
      have htrim : rustTrim (natToDecimal i.toNat) = natToDecimal i.toNat :=
        rustTrim_eq_self _ (fun c hc => (natToDecimal_char_facts hc).1)
      have hbound : i.toNat ≤ 2147483647 := by omega
      have hval : (i.toNat : Int) = i := by omega
      simp only [read_pid, hfs, hline, htrim, parseI32_natToDecimal i.toNat hbound, hval]
  · intro content line hfs hline hparse
    simp only [read_pid, hfs, hline, hparse]

/-- C9 amended witness: content `"0"` reads back as `Some 0`; content `"x"`
fails with `ParsePidFileContent`. -/
theorem read_pid_i32_semantics_witness :
    read_pid [("a.pid", ['0'])] "a.pid" = .ok (some 0) ∧
    read_pid [("b.pid", ['x'])] "b.pid" = .error (.ParsePidFileContent "b.pid") :=
  ⟨(read_pid_i32_semantics [("a.pid", ['0'])] "a.pid").1 0 (by norm_num) (by norm_num) rfl,
   (read_pid_i32_semantics [("b.pid", ['x'])] "b.pid").2 ['x'] ['x'] rfl rfl rfl⟩

/-- C10: a file that exists but is completely empty has no first line to read;
`read_pid` fails with the read error `ReadPidFile` — it returns neither
`Ok(None)` (reserved for a missing file) nor a `ParsePidFileContent` error. -/
theorem read_pid_empty_file (fs : FS) (path : Path) (h : fsRead fs path = some []) :
    read_pid fs path = .error (.ReadPidFile path) ∧
    read_pid fs path ≠ .ok none ∧
    ∀ q, read_pid fs path ≠ .error (.ParsePidFileContent q) := by
  have hmain : read_pid fs path = .error (.ReadPidFile path) := by
    simp only [read_pid, h, firstLine]
  refine ⟨hmain, by rw [hmain]; simp, fun q => by rw [hmain]; simp⟩

/-- C10 witness: a concrete empty file. -/
theorem read_pid_empty_file_witness :
    read_pid [("app.pid", [])] "app.pid" = .error (.ReadPidFile "app.pid") ∧
    read_pid [("app.pid", [])] "app.pid" ≠ .ok none ∧
    ∀ q, read_pid [("app.pid", [])] "app.pid" ≠ .error (.ParsePidFileContent q) :=
  read_pid_empty_file [("app.pid", [])] "app.pid" rfl

/-- C4: `send_signal_by_instruction` lower-cases the instruction and
dispatches per the fixed mapping hangup→HUP(1), cont→CONT(18),
interrupt→INT(2), terminate/stop→TERM(15), quit→QUIT(3), kill→KILL(9), so
`"KILL"`/`"kill"` and `"stop"`/`"terminate"` dispatch the identical signal;
any text whose lower-casing falls outside this closed set fails with
`InvalidInstruction` and no signal is sent. -/
theorem send_signal_closed_mapping (s : String) (pid : Int) :
    (send_signal_by_instruction "KILL" pid = send_signal_by_instruction "kill" pid ∧
     send_signal_by_instruction "stop" pid = send_signal_by_instruction "terminate" pid ∧
     send_signal_by_instruction "hangup" pid = .ok (pid, .SIGHUP) ∧
     send_signal_by_instruction "cont" pid = .ok (pid, .SIGCONT) ∧
     send_signal_by_instruction "interrupt" pid = .ok (pid, .SIGINT) ∧
     send_signal_by_instruction "terminate" pid = .ok (pid, .SIGTERM) ∧
     send_signal_by_instruction "stop" pid = .ok (pid, .SIGTERM) ∧
     send_signal_by_instruction "quit" pid = .ok (pid, .SIGQUIT) ∧
     send_signal_by_instruction "kill" pid = .ok (pid, .SIGKILL) ∧
     Signal.number .SIGHUP = 1 ∧ Signal.number .SIGCONT = 18 ∧
     Signal.number .SIGINT = 2 ∧ Signal.number .SIGTERM = 15 ∧
     Signal.number .SIGQUIT = 3 ∧ Signal.number .SIGKILL = 9) ∧
    (rustToLowercase s ∉
        (["hangup", "cont", "interrupt", "stop", "terminate", "quit", "kill"] :
          List String) →
      send_signal_by_instruction s pid = .error (.InvalidInstruction (rustToLowercase s))) := by
  constructor
  · exact ⟨rfl, rfl, rfl, rfl, rfl, rfl, rfl, rfl, rfl, rfl, rfl, rfl, rfl, rfl, rfl⟩
  · intro h
    simp only [List.mem_cons, List.not_mem_nil, not_or, or_false] at h
    obtain ⟨h1, h2, h3, h4, h5, h6, h7⟩ := h
    simp only [send_signal_by_instruction]
    rw [if_neg h1, if_neg h2, if_neg h3, if_neg h4, if_neg h5, if_neg h6, if_neg h7]

/-- C4 witness: `"explode"` is outside the closed set and is rejected with
`InvalidInstruction`, sending nothing. -/
theorem send_signal_closed_mapping_witness :
    send_signal_by_instruction "explode" 42 = .error (.InvalidInstruction "explode") :=
  (send_signal_closed_mapping "explode" 42).2 (by decide)

/-- C5: the liveness probe `check_process` sends signal number 0 and maps the
OS answer: success → `Ok(true)`; ESRCH ("no such process") → `Ok(false)`;
EPERM ("permission denied") → `Ok(true)`; any other OS error → a
`CheckProcess` error, propagated rather than swallowed. -/
theorem check_process_classifies (os : Int → Int → KillResult) (pid : Int) :
    (os pid 0 = .success → check_process os pid = .ok true) ∧
    (os pid 0 = .fail (some ESRCH) → check_process os pid = .ok false) ∧
    (os pid 0 = .fail (some EPERM) → check_process os pid = .ok true) ∧
    (∀ e, os pid 0 = .fail (some e) → e ≠ ESRCH → e ≠ EPERM →
      check_process os pid = .error (.CheckProcess (toString e))) ∧
    (os pid 0 = .fail none →
      check_process os pid = .error (.CheckProcess "Unknown error")) := by
  refine ⟨fun h => ?_, fun h => ?_, fun h => ?_, fun e h he1 he2 => ?_, fun h => ?_⟩
  · simp only [check_process, h]
  · simp [check_process, h, ESRCH, EPERM]
  · simp [check_process, h, ESRCH, EPERM]
  · simp only [check_process, h]
    rw [if_neg he1, if_neg he2]
  · simp only [check_process, h]

/-- C5 witness: the four OS answers at pid 7, with errno 13 (EACCES) as the
"other error". -/
theorem check_process_classifies_witness :
    check_process (fun _ _ => .success) 7 = .ok true ∧
    check_process (fun _ _ => .fail (some ESRCH)) 7 = .ok false ∧
    check_process (fun _ _ => .fail (some EPERM)) 7 = .ok true ∧
    check_process (fun _ _ => .fail (some 13)) 7 =
      .error (.CheckProcess (toString (13 : Int))) ∧
    check_process (fun _ _ => .fail none) 7 = .error (.CheckProcess "Unknown error") :=
  ⟨(check_process_classifies (fun _ _ => .success) 7).1 rfl,
   (check_process_classifies (fun _ _ => .fail (some ESRCH)) 7).2.1 rfl,
   (check_process_classifies (fun _ _ => .fail (some EPERM)) 7).2.2.1 rfl,
   (check_process_classifies (fun _ _ => .fail (some 13)) 7).2.2.2.1 13 rfl
     (by decide) (by decide),
   (check_process_classifies (fun _ _ => .fail none) 7).2.2.2.2 rfl⟩

lemma wait_for_process_exit_all_alive (alive : Nat → Except ProcessError Bool)
    (pid : Int) :
    ∀ fuel start, (∀ i, start ≤ i → i < start + fuel → alive i = .ok true) →
      wait_for_process_exit alive pid start fuel =
        .error (.TerminateProcessTimeout pid) := by
  intro fuel
  induction fuel with
  | zero => intro start _; rfl
  | succ k ih =>
    intro start h
    have hstart : alive start = .ok true := h start le_rfl (by omega)
    simp only [wait_for_process_exit, hstart]
    exact ih (start + 1) (fun i h1 h2 => h i (by omega) (by omega))

lemma wait_for_process_exit_exits (alive : Nat → Except ProcessError Bool)
    (pid : Int) :
    ∀ fuel start j, j < fuel → alive (start + j) = .ok false →
      (∀ i, i < j → alive (start + i) = .ok true) →
      wait_for_process_exit alive pid start fuel = .ok () := by
  intro fuel
  induction fuel with
  | zero => intro start j hj; omega
  | succ k ih =>
    intro start j hj hdead hlive
    cases j with
    | zero =>
      have h0 : alive start = .ok false := by simpa using hdead
      simp only [wait_for_process_exit, h0]
    | succ m =>
      have h0 : alive start = .ok true := by simpa using hlive 0 (by omega)
      simp only [wait_for_process_exit, h0]
      exact ih (start + 1) m (by omega) (by rw [show start + 1 + m = start + (m + 1) by omega]; exact hdead)
        (fun i hi => by rw [show start + 1 + i = start + (i + 1) by omega]; exact hlive (i + 1) (by omega))

/-- C6: the poll loop of `terminate_process` is strictly bounded by the
supplied timeout budget. After the `"terminate"` signal is dispatched
(accepted by the OS), the loop returns success as soon as a liveness probe
within the budget reports not-alive; and if every probe the budget admits
reports alive, it fails with `TerminateProcessTimeout pid` when the budget is
exhausted rather than polling unboundedly. -/
theorem terminate_poll_loop_bounded (os : Int → Int → KillResult)
    (alive : Nat → Except ProcessError Bool) (pid : Int) (maxPolls : Nat)
    (hsend : os pid 15 = .success) :
    ((∀ i, i < maxPolls → alive i = .ok true) →
      terminate_process os alive pid maxPolls =
        .completed (.error (.TerminateProcessTimeout pid))) ∧
    (∀ j, j < maxPolls → alive j = .ok false → (∀ i, i < j → alive i = .ok true) →
      terminate_process os alive pid maxPolls = .completed (.ok ())) := by
  have hdispatch : send_signal_by_instruction_os os "terminate" pid = .ok () := by
    simp only [send_signal_by_instruction_os,
      show send_signal_by_instruction "terminate" pid = .ok (pid, .SIGTERM) from rfl,
      show ((Signal.SIGTERM.number : Nat) : Int) = 15 from rfl, hsend]
  constructor
  · intro h
    simp only [terminate_process, hdispatch]
    rw [wait_for_process_exit_all_alive alive pid maxPolls 0
      (fun i _ h2 => h i (by omega))]
  · intro j hj hdead hlive
    simp only [terminate_process, hdispatch]
    rw [wait_for_process_exit_exits alive pid maxPolls 0 j hj (by simpa using hdead)
      (fun i hi => by simpa using hlive i hi)]

/-- C6 witness: with a 3-probe budget, a process that never dies times out;
with a 4-probe budget, a process that dies at the third probe (index 2)
terminates successfully. -/
theorem terminate_poll_loop_bounded_witness :
    terminate_process (fun _ _ => .success) (fun _ => .ok true) 9 3 =
      .completed (.error (.TerminateProcessTimeout 9)) ∧
    terminate_process (fun _ _ => .success) (fun i => .ok (decide (i < 2))) 9 4 =
      .completed (.ok ()) :=
  ⟨(terminate_poll_loop_bounded (fun _ _ => .success) (fun _ => .ok true) 9 3 rfl).1
     (fun i _ => rfl),
   (terminate_poll_loop_bounded (fun _ _ => .success) (fun i => .ok (decide (i < 2))) 9 4
       rfl).2 2 (by omega) rfl
     (fun i hi => by interval_cases i <;> rfl)⟩

/-- C7: with at least one subscriber, the watch loop broadcasts a hangup or
cont event and continues waiting for further signals, while the first
terminal-class event (interrupt, quit or terminate) is broadcast and then the
loop exits permanently — no event arriving after it is ever broadcast. -/
theorem watch_loop_one_shot_terminal (n : Nat) (hn : n ≠ 0)
    (pre post : List WatchSig) (t : WatchSig)
    (hpre : ∀ s ∈ pre, s.isTerminal = false) (ht : t.isTerminal = true) :
    watch_signal_internal n (pre ++ t :: post) = (pre ++ [t], .exited) ∧
    (∀ l, (∀ s ∈ l, s.isTerminal = false) →
      watch_signal_internal n l = (l, .waiting)) := by
  have hsend : broadcastSend n = .ok () := by
    rw [broadcastSend, if_neg hn]
  constructor
  · induction pre with
    | nil =>
      simp only [List.nil_append, watch_signal_internal, hsend, ht, if_pos]
    | cons s rest ih =>
      have hs : s.isTerminal = false := hpre s (List.mem_cons_self s rest)
      have hrest := ih (fun x hx => hpre x (List.mem_cons_of_mem s hx))
      simp only [List.cons_append, watch_signal_internal, hsend, hs,
        Bool.false_eq_true, if_false, List.append_eq, hrest]
  · intro l hl
    induction l with
    | nil => rfl
    | cons s rest ih =>
      have hs : s.isTerminal = false := hl s (List.mem_cons_self s rest)
      have hrest := ih (fun x hx => hl x (List.mem_cons_of_mem s hx))
      simp only [watch_signal_internal, hsend, hs, Bool.false_eq_true, if_false,
        List.append_eq, hrest]

/-- C7 witness: one subscriber; hangup is broadcast and the loop continues,
interrupt is broadcast and the loop exits, the quit arriving after it is never
broadcast. -/
theorem watch_loop_one_shot_terminal_witness :
    watch_signal_internal 1 [.hangup, .interrupt, .quit] =
      ([.hangup, .interrupt], .exited) ∧
    watch_signal_internal 1 [.hangup, .cont] = ([.hangup, .cont], .waiting) :=
  ⟨(watch_loop_one_shot_terminal 1 (by decide) [.hangup] [.quit] .interrupt
      (by decide) (by decide)).1,
   (watch_loop_one_shot_terminal 1 (by decide) [] [] .interrupt (by decide)
      (by decide)).2 [.hangup, .cont] (by decide)⟩

/-- C8 counterexample: with zero subscribers at send time the event is not
"simply dropped": even for an informational hangup, `tokio`'s broadcast send
fails, the loop's `.expect` panics and the watcher aborts instead of
proceeding normally. -/
theorem watch_loop_zero_subscribers_panics :
    watch_signal_internal 0 [.hangup] = ([], .panicked) ∧
    watch_signal_internal 0 [.hangup] ≠ ([.hangup], .waiting) := by decide

/-- C8 amended: broadcasting with zero subscribers at send time IS an error:
the send fails, the `.expect` panics, and the watch loop aborts before
broadcasting anything — for every signal class and every later arrival. -/
theorem watch_loop_zero_subscribers (s : WatchSig) (rest : List WatchSig) :
    watch_signal_internal 0 (s :: rest) = ([], .panicked) := rfl

end WheelRs
